import Mathlib

/-!
A verification development for the core persistence and transaction layer of
`src/kkg_erp.py` (a point-of-sale and inventory ledger).  The Python source is
shallowly embedded: SQL `REAL` columns become rationals, table contents become
lists of rows, the per-session cart and the database tables become one explicit
state record, and the POS interactions (cart additions, sale finalization)
become a step function on that state.
-/

namespace KkgErp

/-- Monetary values (SQL `REAL` columns and Python floats) are embedded as
rationals. -/
abbrev Money := ℚ

/-- A row of the `products` table (`CREATE TABLE products`, lines 280-289 of
`kkg_erp.py`).  The `min_stock` / `supplier` columns play no role in the claims
and are omitted; `stock` is an SQL `INTEGER`, embedded as `Int`. -/
structure Product where
  id : Nat
  name : String
  category : String
  price : Money
  cost_price : Money
  stock : Int
  deriving Repr, DecidableEq

/-- An entry of `st.session_state.cart` (line 665-669): the finalize code reads
the keys `name`, `qty`, `price`, `cost_price`, `total` and `id` of the spread
`dict(**prod, qty, total)` with `total = qty * prod.price`. -/
structure CartItem where
  id : Nat
  name : String
  price : Money
  cost_price : Money
  qty : Nat
  total : Money
  deriving Repr, DecidableEq

/-- A row of the `transactions` table (lines 302-314).  The source builds the
invoice id as the string `f"INV-{int(time.time())}"`; the prefix is constant,
so the row is keyed here by the integer timestamp itself. -/
structure TxRow where
  invoice_id : Nat
  customer_phone : String
  date : String
  type : String
  total_amount : Money
  paid_amount : Money
  due_amount : Money
  payment_mode : String
  created_by : String
  deriving Repr, DecidableEq

/-- A row of the `invoice_items` table (lines 317-325), as inserted by the
finalize code (line 706-707). -/
structure ItemRow where
  invoice_id : Nat
  product_name : String
  quantity : Nat
  unit_price : Money
  cost_price : Money
  total_price : Money
  deriving Repr, DecidableEq

/-- The state visible to the POS terminal: the `products` table, the session
cart, and the `transactions` / `invoice_items` tables. -/
structure State where
  products : List Product
  cart : List CartItem
  transactions : List TxRow
  invoice_items : List ItemRow
  deriving Repr, DecidableEq

/-- The quantity of product `pid` already in the cart: embeds
`sum(item[qty] for item in st.session_state.cart if item[id] == prod[id])`
(line 661). -/
def inCartQty : List CartItem → Nat → Nat
  | [], _ => 0
  | i :: rest, pid => (if i.id = pid then i.qty else 0) + inCartQty rest pid

/-- Outcome of an Add to Cart submission.  `stockError a` embeds the
rejection branch of line 663, the error message reporting how many units are
available; the datum `a` it carries is the value interpolated into that
message. -/
inductive AddResult where
  | added
  | stockError (available : Int)
  | noProduct
  deriving Repr, DecidableEq

/-- Embeds the stock-validation block of the POS terminal (lines 656-670):
if `(in_cart + qty) > prod.stock` the add is rejected and the message
reports `prod.stock`; otherwise the spread of `prod` with `qty` and
`total = qty * prod.price` is appended to the cart. -/
def addLine (s : State) (prod : Product) (qty : Nat) : AddResult × State :=
  let in_cart := inCartQty s.cart prod.id
  if ((in_cart + qty : Nat) : Int) > prod.stock then
    (.stockError prod.stock, s)
  else
    (.added, { s with cart := s.cart ++
      [{ id := prod.id, name := prod.name, price := prod.price,
         cost_price := prod.cost_price, qty := qty,
         total := (qty : Money) * prod.price }] })

/-- The POS add step driven by a product id: the selection map `p_map` keys
the cached products, and `prod = p_map[p_sel]` resolves to the (unique, by the
primary key) product with that id.  Selecting an id not in the table cannot
happen through the UI and leaves the state unchanged. -/
def addLineOp (s : State) (pid : Nat) (qty : Nat) : AddResult × State :=
  match s.products.find? (fun p => p.id = pid) with
  | none => (.noProduct, s)
  | some prod => addLine s prod qty

/-- The bill total `df[total].sum()` (line 680). -/
def cartTotal (cart : List CartItem) : Money := (cart.map (·.total)).sum

/-- Embeds `UPDATE products SET stock = stock - ? WHERE id = ?` (line 708). -/
def decStock (ps : List Product) (pid : Nat) (q : Nat) : List Product :=
  ps.map fun p => if p.id = pid then { p with stock := p.stock - (q : Int) } else p

/-- The per-line stock deductions of finalize: one `UPDATE` per cart line
(lines 705-708). -/
def applyStock (ps : List Product) (cart : List CartItem) : List Product :=
  cart.foldl (fun a i => decStock a i.id i.qty) ps

/-- Which of the persistence steps of finalize succeed.  Each `db.run` call
swallows its own failure and returns `False`, a value the finalize code never
inspects. -/
structure DbFlags where
  header : Bool
  lineItems : Bool
  stockUpd : Bool
  audit : Bool
  deriving Repr, DecidableEq

/-- Embeds the Finalize Sale handler (lines 695-719): compute
`total = df[total].sum()`, `due = total - paid`, insert the transaction
header, insert one `invoice_items` row and issue one stock `UPDATE` per cart
line, then set `st.session_state.cart = []` (line 718) — unconditionally,
whether or not any of the `db.run` calls succeeded.  `ts` is `int(time.time())`
at the moment of the click.  The audit-log insert touches none of the modelled
tables. -/
def finalizeWithDb (s : State) (flags : DbFlags) (ts : Nat) (custPhone : String)
    (today : String) (paid : Money) (mode : String) (user : String) : State :=
  let total := cartTotal s.cart
  let due := total - paid
  let tx : TxRow :=
    { invoice_id := ts, customer_phone := custPhone, date := today,
      type := "SALE", total_amount := total, paid_amount := paid,
      due_amount := due, payment_mode := mode, created_by := user }
  let newItems : List ItemRow := s.cart.map fun i =>
    { invoice_id := ts, product_name := i.name, quantity := i.qty,
      unit_price := i.price, cost_price := i.cost_price, total_price := i.total }
  { products := if flags.stockUpd then applyStock s.products s.cart else s.products
    cart := []
    transactions := if flags.header then s.transactions ++ [tx] else s.transactions
    invoice_items := if flags.lineItems then s.invoice_items ++ newItems
      else s.invoice_items }

/-- Finalize with every persistence step succeeding. -/
def finalize (s : State) (ts : Nat) (custPhone : String) (today : String)
    (paid : Money) (mode : String) (user : String) : State :=
  finalizeWithDb s ⟨true, true, true, true⟩ ts custPhone today paid mode user

/-- One POS interaction: an Add to Cart click or a Finalize Sale click. -/
inductive Op where
  | add (pid : Nat) (qty : Nat)
  | fin (ts : Nat) (custPhone : String) (today : String) (paid : Money)
      (mode : String) (user : String)
  deriving Repr

/-- Apply one interaction to the state. -/
def step (s : State) : Op → State
  | .add pid qty => (addLineOp s pid qty).2
  | .fin ts cp d p m u => finalize s ts cp d p m u

/-- Apply a sequence of interactions. -/
def runOps (s : State) : List Op → State
  | [] => s
  | op :: rest => runOps (step s op) rest

/-- The timestamp of a finalize interaction, if any. -/
def finTs : Op → Option Nat
  | .fin ts _ _ _ _ _ => some ts
  | _ => none

/-- A fresh session over a given `products` table: empty cart, empty ledger. -/
def initState (prods : List Product) : State :=
  { products := prods, cart := [], transactions := [], invoice_items := [] }

/-- The single-quote character, written by code so that the source file itself
contains no quoted apostrophe. -/
def squote : Char := Char.ofNat 39

/-- Embeds line 236, which replaces every question-mark character of the query
by a percent-s pair, on the character list of the statement: Python
`str.replace` with a one-character pattern rewrites every occurrence, with no
regard to SQL quoting. -/
def replaceQM : List Char → List Char
  | [] => []
  | c :: rest =>
    if c = '?' then '%' :: 's' :: replaceQM rest else c :: replaceQM rest

/-- Modelled from the spec: the transparent placeholder translation the spec
describes ("the adapter must perform this translation transparently so callers
write backend-agnostic SQL") rewrites only parameter placeholders, i.e. only a
`?` standing outside a single-quoted SQL string literal; a literal question
mark inside quotes is text of the statement and must be preserved.  The flag
tracks whether the scan is inside a quoted literal. -/
def specReplaceQM : Bool → List Char → List Char
  | _, [] => []
  | inQ, c :: rest =>
    if c = squote then c :: specReplaceQM (!inQ) rest
    else if c = '?' && !inQ then '%' :: 's' :: specReplaceQM inQ rest
    else c :: specReplaceQM inQ rest

/-- Holds `true` when the statement has no question mark inside a
single-quoted literal, i.e. when every question mark of the statement is a
parameter placeholder. -/
def noQMInQuotes : Bool → List Char → Bool
  | _, [] => true
  | inQ, c :: rest =>
    if c = squote then noQMInQuotes (!inQ) rest
    else if c = '?' && inQ then false
    else noQMInQuotes inQ rest

namespace DatabaseEngine

/-- The two backends of `get_db_connection` (lines 190-209). -/
inductive DbType where
  | POSTGRES
  | SQLITE
  deriving Repr, DecidableEq

/-- The transaction-control call `run` issues on the shared connection:
`self.conn.commit()` on a successful write, `self.conn.rollback()` on a failed
statement against Postgres, nothing otherwise. -/
inductive DbAction where
  | noAction
  | committed
  | rolledBack
  deriving Repr, DecidableEq

/-- The `DatabaseEngine` handle (lines 211-226), abstracted over the value
type `V` of SQL parameters and cells.  `conn` is the truthiness of
`self.conn`; `exec` is the behaviour of `cur.execute(...)` followed by
`cur.fetchall()` on the live backend: on success it yields the cursor
description (column names) and the raw row tuples, and `none` stands for a
raised exception, caught by the `try`/`except` of `run`. -/
structure Engine (V : Type) where
  db_type : DbType
  conn : Bool
  exec : List Char → List V → Option (List String × List (List V))

/-- Embeds `DatabaseEngine.run` (lines 227-263).  The returned value is
`Sum.inl` a list of column-name-to-value rows when `fetch=True` (the
`[dict(row) for row in cur.fetchall()]` and `[dict(zip(cols, row)) ...]`
branches both pair column names with cell values in cursor order), and
`Sum.inr` a boolean when `fetch=False`.  The second component records the
transaction-control call issued.  The whole body is a total function: the
`try`/`except Exception` wrapper turns every statement failure into the
degenerate return value instead of an exception. -/
def run {V : Type} (e : Engine V) (query : List Char) (params : List V)
    (fetch : Bool) : (List (List (String × V)) ⊕ Bool) × DbAction :=
  if e.conn = false then
    (if fetch then .inl [] else .inr false, .noAction)
  else
    let q := if e.db_type = .POSTGRES then replaceQM query else query
    match e.exec q params with
    | some (cols, rows) =>
      if fetch then (.inl (rows.map fun r => cols.zip r), .noAction)
      else (.inr true, .committed)
    | none =>
      (if fetch then .inl [] else .inr false,
       if e.db_type = .POSTGRES then .rolledBack else .noAction)

end DatabaseEngine

/-- SQL `SUM(..)`: `NULL` (here `none`) over an empty row set, the sum
otherwise. -/
def sqlSum (vals : List Money) : Option Money :=
  match vals with
  | [] => none
  | v :: rest => some (v :: rest).sum

/-- SQL `COALESCE(x, d)`. -/
def coalesce (x : Option Money) (d : Money) : Money := x.getD d

/-- A row of the `expenses` table (lines 328-335). -/
structure ExpenseRow where
  date : String
  category : String
  amount : Money
  note : String
  added_by : String
  deriving Repr, DecidableEq

/-- Embeds `get_live_financials` (lines 363-388) over the `transactions` and
`expenses` tables.  Each of the four `SELECT COALESCE(SUM(..), 0)` aggregates
is embedded as `coalesce (sqlSum ..) 0` over the filtered column, matching the
SQL `WHERE` clauses; the function returns
`(revenue, expenses, debt, net_profit)`. -/
def get_live_financials (txs : List TxRow) (exps : List ExpenseRow)
    (today : String) : Money × Money × Money × Money :=
  let revenue := coalesce (sqlSum
    (((txs.filter fun t => t.date == today && t.type == "SALE").map
      (·.total_amount)))) 0
  let expenses := coalesce (sqlSum
    ((exps.filter fun ex => ex.date == today).map (·.amount))) 0
  let total_sales := coalesce (sqlSum
    ((txs.filter fun t => t.type == "SALE").map (·.total_amount))) 0
  let total_paid := coalesce (sqlSum (txs.map (·.paid_amount))) 0
  let debt := total_sales - total_paid
  let net_profit := revenue - expenses
  (revenue, expenses, debt, net_profit)

/-- A Python mapping as `create_invoice` reads it through `.get`: each looked-up
key is present (`some`) or absent (`none`).  A row fetched from the
`invoice_items` table carries `product_name`, `quantity`, `unit_price` and
`total_price` but not `name`, `qty`, `price` or `total`; a cart entry carries
the latter. -/
structure PyItem where
  product_name : Option String
  name : Option String
  quantity : Option Money
  qty : Option Money
  unit_price : Option Money
  price : Option Money
  total_price : Option Money
  total : Option Money
  deriving Repr, DecidableEq

/-- Python `a or b` on optional numeric values: `None` and `0` are falsy, so
the right operand is taken exactly when the left is absent or zero. -/
def pyOr (a b : Option Money) : Option Money :=
  match a with
  | some v => if v = 0 then b else some v
  | none => b

/-- Python `float(x)` / `int(x)` on the result of the fallback lookup:
succeeds on a number, raises `TypeError` (here `none`) on `None`. -/
def pyNum : Option Money → Option Money
  | none => none
  | some v => some v

/-- Embeds the numeric conversions of one table row of `create_invoice`
(lines 486-497): `float(item.get(unit_price) or item.get(price))`,
`int(item.get(quantity) or item.get(qty))`,
`float(item.get(total_price) or item.get(total))`.  `none` means the
conversion raised and the line was not rendered.  (The name lookup
`item.get(product_name) or item.get(name)` goes through `str`, which is
total, so it cannot raise and is omitted.) -/
def create_invoice_line (item : PyItem) : Option (Money × Money × Money) :=
  match pyNum (pyOr item.unit_price item.price) with
  | none => none
  | some price =>
    match pyNum (pyOr item.quantity item.qty) with
    | none => none
    | some qty =>
      match pyNum (pyOr item.total_price item.total) with
      | none => none
      | some total => some (price, qty, total)

/-- A line-item row as fetched back from the `invoice_items` table (its keys
are the column names; the cart-entry keys are absent). -/
def dbItemRow (pname : String) (q up tp : Money) : PyItem :=
  { product_name := some pname, name := none, quantity := some q, qty := none,
    unit_price := some up, price := none, total_price := some tp,
    total := none }

/-- A row of the `customers` table (lines 292-299). -/
structure CustomerRow where
  phone : String
  name : String
  address : String
  joined_date : String
  credit_limit : Money
  deriving Repr, DecidableEq

/-- Modelled from the spec: customer deletion is absent from
`src/kkg_erp.py` (its Customers module only registers and lists customers).
The spec states a customer is "Deletable only if it has zero associated
Transaction rows" and that "deleting a customer with at least one historical
transaction is rejected; deleting one with zero transactions succeeds"; so
deletion checks the count of `transactions` rows referencing the phone of the
customer, removes the customer row when that count is zero, and leaves the
table unchanged otherwise.  Returns whether the deletion succeeded, with the
resulting `customers` table. -/
def deleteCustomer (customers : List CustomerRow) (txs : List TxRow)
    (phone : String) : Bool × List CustomerRow :=
  if (txs.filter fun t => t.customer_phone == phone).length = 0 then
    (true, customers.filter fun c => !(c.phone == phone))
  else
    (false, customers)

/-! ## Helper lemmas -/

lemma inCartQty_append (c1 c2 : List CartItem) (pid : Nat) :
    inCartQty (c1 ++ c2) pid = inCartQty c1 pid + inCartQty c2 pid := by
  induction c1 with
  | nil => simp [inCartQty]
  | cons i rest ih => simp [inCartQty, ih]; omega

lemma applyStock_eq (cart : List CartItem) : ∀ ps : List Product,
    applyStock ps cart
      = ps.map fun p => { p with stock := p.stock - (inCartQty cart p.id : Int) } := by
  induction cart with
  | nil =>
    intro ps
    show ps = ps.map fun p => { p with stock := p.stock - ((0 : Nat) : Int) }
    have : (fun p : Product => { p with stock := p.stock - ((0 : Nat) : Int) })
        = fun p : Product => p := by
      funext p
      simp
    rw [this, List.map_id']
  | cons i rest ih =>
    intro ps
    show applyStock (decStock ps i.id i.qty) rest = _
    rw [ih, decStock, List.map_map]
    apply List.map_congr_left
    intro p _
    by_cases h : p.id = i.id
    · simp only [Function.comp, if_pos h, inCartQty, if_pos h.symm]
      simp only [Nat.cast_add]
      congr 1
      ring
    · have h2 : ¬ i.id = p.id := fun e => h e.symm
      simp only [Function.comp, if_neg h, inCartQty, if_neg h2]
      simp

lemma addLineOp_cart_or_same (s : State) (pid qty : Nat) :
    (addLineOp s pid qty).2.products = s.products ∧
    (addLineOp s pid qty).2.transactions = s.transactions ∧
    (addLineOp s pid qty).2.invoice_items = s.invoice_items := by
  unfold addLineOp
  cases s.products.find? fun p => p.id = pid with
  | none => exact ⟨rfl, rfl, rfl⟩
  | some prod =>
    unfold addLine
    dsimp only
    split <;> exact ⟨rfl, rfl, rfl⟩

/-- The cart invariant the stock check maintains: what the cart requests never
exceeds the stock on hand, and stock is nonnegative. -/
def StockInv (s : State) : Prop :=
  ∀ p ∈ s.products, 0 ≤ p.stock ∧ (inCartQty s.cart p.id : Int) ≤ p.stock

lemma stockInv_step (s : State) (op : Op)
    (hids : (s.products.map (·.id)).Nodup) (hinv : StockInv s) :
    ((step s op).products.map (·.id)).Nodup ∧ StockInv (step s op) := by
  cases op with
  | add pid qty =>
    show ((addLineOp s pid qty).2.products.map (·.id)).Nodup
      ∧ StockInv (addLineOp s pid qty).2
    unfold addLineOp
    cases hf : s.products.find? fun p => p.id = pid with
    | none => exact ⟨hids, hinv⟩
    | some prod =>
      have hmem : prod ∈ s.products := List.mem_of_find?_eq_some hf
      have hpid : prod.id = pid := by
        have := List.find?_some hf
        simpa using this
      unfold addLine
      dsimp only
      split
      · exact ⟨hids, hinv⟩
      · rename_i hnot
        refine ⟨hids, ?_⟩
        intro p hp
        obtain ⟨hge, hle⟩ := hinv p hp
        refine ⟨hge, ?_⟩
        dsimp only
        rw [inCartQty_append]
        by_cases hid : prod.id = p.id
        · have hpp : p = prod := List.inj_on_of_nodup_map hids hp hmem hid.symm
          subst hpp
          simp only [inCartQty, if_pos rfl]
          push_cast at hnot ⊢
          omega
        · simp only [inCartQty, if_neg hid, Nat.add_zero]
          exact hle
  | fin ts cp d pd md us =>
    show ((finalize s ts cp d pd md us).products.map (·.id)).Nodup
      ∧ StockInv (finalize s ts cp d pd md us)
    unfold finalize finalizeWithDb
    dsimp only
    rw [if_pos rfl]
    constructor
    · rw [applyStock_eq, List.map_map]
      exact hids
    · intro p hp
      rw [applyStock_eq] at hp
      rcases List.mem_map.1 hp with ⟨p0, hp0, rfl⟩
      obtain ⟨hge, hle⟩ := hinv p0 hp0
      dsimp only
      constructor
      · omega
      · simp only [inCartQty, Nat.cast_zero]
        omega

lemma stockInv_runOps (ops : List Op) : ∀ s : State,
    (s.products.map (·.id)).Nodup → StockInv s →
    StockInv (runOps s ops) := by
  induction ops with
  | nil => intro s _ hinv; exact hinv
  | cons op rest ih =>
    intro s hids hinv
    obtain ⟨hids2, hinv2⟩ := stockInv_step s op hids hinv
    exact ih (step s op) hids2 hinv2

/-! ## C1 -/

/-- C1: for every product, after any sequence of cart additions and finalize
commits starting from a fresh session over a table with distinct product ids
and nonnegative stock, the stock count remains nonnegative. -/
theorem stock_nonneg_after_runOps (prods : List Product) (ops : List Op)
    (hids : (prods.map (·.id)).Nodup) (hstock : ∀ p ∈ prods, 0 ≤ p.stock) :
    ∀ p ∈ (runOps (initState prods) ops).products, 0 ≤ p.stock := by
  have hinv : StockInv (initState prods) := by
    intro p hp
    refine ⟨hstock p hp, ?_⟩
    simp only [initState, inCartQty, Nat.cast_zero]
    exact hstock p hp
  intro p hp
  exact (stockInv_runOps ops (initState prods) hids hinv p hp).1

/-- C1 witness: a concrete run — stock 5, two adds of 3 (the second rejected),
a finalize, another add and finalize — keeps stock nonnegative. -/
theorem stock_nonneg_after_runOps_witness :
    (([⟨1, "Urea", "fert", 10, 5, 5⟩] : List Product).map (·.id)).Nodup ∧
    (∀ p ∈ ([⟨1, "Urea", "fert", 10, 5, 5⟩] : List Product), 0 ≤ p.stock) ∧
    (∀ p ∈ (runOps (initState [⟨1, "Urea", "fert", 10, 5, 5⟩])
        [.add 1 3, .add 1 3, .fin 100 "p" "d" 20 "Cash" "admin",
         .add 1 2, .fin 101 "p" "d" 0 "Cash" "admin"]).products, 0 ≤ p.stock) :=
  ⟨by decide, by decide,
   stock_nonneg_after_runOps _ _ (by decide) (by decide)⟩

/-! ## C2 -/

lemma due_runOps (ops : List Op) : ∀ s : State,
    (∀ tx ∈ s.transactions, tx.due_amount = tx.total_amount - tx.paid_amount) →
    (∀ tx ∈ (runOps s ops).transactions,
        tx.due_amount = tx.total_amount - tx.paid_amount) ∧
    ∃ l, (runOps s ops).transactions = s.transactions ++ l := by
  induction ops with
  | nil => exact fun s h => ⟨h, [], (List.append_nil _).symm⟩
  | cons op rest ih =>
    intro s h
    cases op with
    | add pid qty =>
      have heq : (step s (.add pid qty)).transactions = s.transactions :=
        (addLineOp_cart_or_same s pid qty).2.1
      obtain ⟨h1, l, hl⟩ := ih (step s (.add pid qty)) (by rw [heq]; exact h)
      exact ⟨h1, l, by rw [show runOps s (.add pid qty :: rest) = runOps (step s (.add pid qty)) rest from rfl, hl, heq]⟩
    | fin ts cp d pd md us =>
      have htx : (step s (.fin ts cp d pd md us)).transactions = s.transactions ++
          [{ invoice_id := ts, customer_phone := cp, date := d, type := "SALE",
             total_amount := cartTotal s.cart, paid_amount := pd,
             due_amount := cartTotal s.cart - pd, payment_mode := md,
             created_by := us }] := by
        simp [step, finalize, finalizeWithDb]
      have h2 : ∀ tx ∈ (step s (.fin ts cp d pd md us)).transactions,
          tx.due_amount = tx.total_amount - tx.paid_amount := by
        rw [htx]
        intro tx htxm
        rcases List.mem_append.1 htxm with hm | hm
        · exact h tx hm
        · rw [List.mem_singleton.1 hm]
      obtain ⟨h1, l, hl⟩ := ih (step s (.fin ts cp d pd md us)) h2
      refine ⟨h1, (([{ invoice_id := ts, customer_phone := cp, date := d, type := "SALE", total_amount := cartTotal s.cart, paid_amount := pd, due_amount := cartTotal s.cart - pd, payment_mode := md, created_by := us }] : List TxRow) ++ l), ?_⟩
      rw [show runOps s (.fin ts cp d pd md us :: rest) = runOps (step s (.fin ts cp d pd md us)) rest from rfl, hl, htx, List.append_assoc]

/-- C2: for every committed transaction row, `due_amount` equals
`total_amount - paid_amount` at creation time and at all times thereafter:
the row set only ever grows by appended rows (nothing updates a transaction
row), and each appended row is created with `due = total - paid`
(lines 697-702). -/
theorem due_amount_invariant (s : State) (ops : List Op)
    (h : ∀ tx ∈ s.transactions, tx.due_amount = tx.total_amount - tx.paid_amount) :
    (∀ tx ∈ (runOps s ops).transactions,
        tx.due_amount = tx.total_amount - tx.paid_amount) ∧
    ∃ l, (runOps s ops).transactions = s.transactions ++ l :=
  due_runOps ops s h

/-- C2 witness: a concrete run from an empty ledger. -/
theorem due_amount_invariant_witness :
    (∀ tx ∈ (initState []).transactions,
        tx.due_amount = tx.total_amount - tx.paid_amount) ∧
    ((∀ tx ∈ (runOps (initState []) [.fin 100 "p" "d" 20 "Cash" "admin"]).transactions,
        tx.due_amount = tx.total_amount - tx.paid_amount) ∧
     ∃ l, (runOps (initState []) [.fin 100 "p" "d" 20 "Cash" "admin"]).transactions
        = (initState []).transactions ++ l) :=
  ⟨by decide, due_amount_invariant (initState []) [.fin 100 "p" "d" 20 "Cash" "admin"] (by decide)⟩

/-! ## C3 -/

/-- Every cart line carries `total = qty * price` (built that way at add time,
line 668). -/
def CartInv (s : State) : Prop :=
  ∀ i ∈ s.cart, i.total = (i.qty : Money) * i.price

/-- Every persisted line item satisfies `total_price = quantity * unit_price`. -/
def LineInv (s : State) : Prop :=
  ∀ it ∈ s.invoice_items, it.total_price = (it.quantity : Money) * it.unit_price

/-- The line items of each invoice sum to the `total_amount` of the parent
transaction. -/
def SumInv (s : State) : Prop :=
  ∀ tx ∈ s.transactions,
    ((s.invoice_items.filter fun it => it.invoice_id == tx.invoice_id).map
      (·.total_price)).sum = tx.total_amount

/-- Every persisted line item references some persisted invoice header. -/
def ItemsIdInv (s : State) : Prop :=
  ∀ it ∈ s.invoice_items, it.invoice_id ∈ s.transactions.map (·.invoice_id)

lemma addLineOp_cartInv (s : State) (pid qty : Nat) (h : CartInv s) :
    CartInv (addLineOp s pid qty).2 := by
  unfold addLineOp
  cases s.products.find? fun p => p.id = pid with
  | none => exact h
  | some prod =>
    unfold addLine
    dsimp only
    split
    · exact h
    · intro i hi
      dsimp only at hi
      rcases List.mem_append.1 hi with hm | hm
      · exact h i hm
      · rw [List.mem_singleton.1 hm]

/-- The `invoice_items` row built from a cart line (lines 706-707). -/
def toItemRow (ts : Nat) (i : CartItem) : ItemRow :=
  { invoice_id := ts, product_name := i.name, quantity := i.qty, unit_price := i.price, cost_price := i.cost_price, total_price := i.total }

lemma finalize_parts (s : State) (ts : Nat) (cp d : String) (pd : Money) (md us : String) :
    (finalize s ts cp d pd md us).cart = [] ∧
    (finalize s ts cp d pd md us).transactions = s.transactions ++ [{ invoice_id := ts, customer_phone := cp, date := d, type := "SALE", total_amount := cartTotal s.cart, paid_amount := pd, due_amount := cartTotal s.cart - pd, payment_mode := md, created_by := us }] ∧
    (finalize s ts cp d pd md us).invoice_items = s.invoice_items ++ s.cart.map (toItemRow ts) := by
  refine ⟨rfl, ?_, ?_⟩ <;> simp [finalize, finalizeWithDb, toItemRow]

lemma c3_runOps (ops : List Op) : ∀ s : State,
    CartInv s → LineInv s → SumInv s → ItemsIdInv s →
    ((s.transactions.map (·.invoice_id)) ++ ops.filterMap finTs).Nodup →
    CartInv (runOps s ops) ∧ LineInv (runOps s ops) ∧ SumInv (runOps s ops) ∧
      ItemsIdInv (runOps s ops) := by
  induction ops with
  | nil => exact fun s h1 h2 h3 h4 _ => ⟨h1, h2, h3, h4⟩
  | cons op rest ih =>
    intro s h1 h2 h3 h4 hnd
    cases op with
    | add pid qty =>
      have hsame := addLineOp_cart_or_same s pid qty
      apply ih (step s (.add pid qty))
      · exact addLineOp_cartInv s pid qty h1
      · intro it hit
        rw [show (step s (.add pid qty)).invoice_items = s.invoice_items from hsame.2.2] at hit
        exact h2 it hit
      · intro tx htx
        rw [show (step s (.add pid qty)).transactions = s.transactions from hsame.2.1] at htx
        rw [show (step s (.add pid qty)).invoice_items = s.invoice_items from hsame.2.2]
        exact h3 tx htx
      · intro it hit
        rw [show (step s (.add pid qty)).invoice_items = s.invoice_items from hsame.2.2] at hit
        rw [show (step s (.add pid qty)).transactions = s.transactions from hsame.2.1]
        exact h4 it hit
      · rw [show (step s (.add pid qty)).transactions = s.transactions from hsame.2.1]
        exact hnd
    | fin ts cp d pd md us =>
      obtain ⟨hc, ht, hi⟩ := finalize_parts s ts cp d pd md us
      have hop : (step s (.fin ts cp d pd md us)) = finalize s ts cp d pd md us := rfl
      have hres : ((s.transactions.map (·.invoice_id)) ++ (ts :: rest.filterMap finTs)).Nodup := hnd
      have hts_notin : ts ∉ s.transactions.map (·.invoice_id) :=
        fun hmem => (List.disjoint_of_nodup_append hres) hmem (List.mem_cons_self ts _)
      apply ih (step s (.fin ts cp d pd md us))
      · intro i hi2
        rw [hop, hc] at hi2
        exact absurd hi2 (List.not_mem_nil i)
      · intro it hit
        rw [hop, hi] at hit
        rcases List.mem_append.1 hit with hm | hm
        · exact h2 it hm
        · rcases List.mem_map.1 hm with ⟨i, him, rfl⟩
          show i.total = (i.qty : Money) * i.price
          exact h1 i him
      · intro tx htx
        rw [hop, ht] at htx
        rw [hop, hi]
        rcases List.mem_append.1 htx with hm | hm
        · have htxid : tx.invoice_id ∈ s.transactions.map (·.invoice_id) :=
            List.mem_map_of_mem _ hm
          have hnew_nil : (s.cart.map (toItemRow ts)).filter
              (fun it => it.invoice_id == tx.invoice_id) = [] := by
            rw [List.filter_eq_nil_iff]
            intro a ha
            rcases List.mem_map.1 ha with ⟨i, _, rfl⟩
            show ¬ ((toItemRow ts i).invoice_id == tx.invoice_id) = true
            simp only [toItemRow, beq_iff_eq]
            intro he
            exact hts_notin (he ▸ htxid)
          rw [List.filter_append, hnew_nil, List.append_nil]
          exact h3 tx hm
        · rw [List.mem_singleton.1 hm]
          dsimp only
          have hold_nil : s.invoice_items.filter (fun it => it.invoice_id == ts) = [] := by
            rw [List.filter_eq_nil_iff]
            intro a ha
            have haid : a.invoice_id ∈ s.transactions.map (·.invoice_id) := h4 a ha
            simp only [beq_iff_eq]
            intro he
            exact hts_notin (he ▸ haid)
          have hnew_all : (s.cart.map (toItemRow ts)).filter
              (fun it => it.invoice_id == ts) = s.cart.map (toItemRow ts) := by
            rw [List.filter_eq_self]
            intro a ha
            rcases List.mem_map.1 ha with ⟨i, _, rfl⟩
            simp [toItemRow]
          rw [List.filter_append, hold_nil, hnew_all, List.nil_append, List.map_map]
          show ((s.cart.map fun i => i.total).sum) = cartTotal s.cart
          rfl
      · intro it hit
        rw [hop, hi] at hit
        rw [hop, ht, List.map_append]
        rcases List.mem_append.1 hit with hm | hm
        · exact List.mem_append_left _ (h4 it hm)
        · rcases List.mem_map.1 hm with ⟨i, _, rfl⟩
          apply List.mem_append_right
          show ts ∈ _
          simp
      · rw [hop, ht, List.map_append]
        have : ((s.transactions.map (·.invoice_id)) ++ [ts]) ++ rest.filterMap finTs
            = (s.transactions.map (·.invoice_id)) ++ (ts :: rest.filterMap finTs) := by
          simp [List.append_assoc]
        rw [show ([{ invoice_id := ts, customer_phone := cp, date := d, type := "SALE", total_amount := cartTotal s.cart, paid_amount := pd, due_amount := cartTotal s.cart - pd, payment_mode := md, created_by := us }] : List TxRow).map (·.invoice_id) = [ts] from rfl]
        rw [this]
        exact hres

/-- C3: for every committed sale from a fresh session (finalize clicks at
pairwise-distinct timestamps, as the second-granularity invoice ids require),
each persisted `invoice_items` row satisfies
`total_price = quantity * unit_price`, and the line totals of each invoice sum
to the `total_amount` of the parent transaction. -/
theorem invoice_items_consistent (prods : List Product) (ops : List Op)
    (hts : (ops.filterMap finTs).Nodup) :
    LineInv (runOps (initState prods) ops) ∧ SumInv (runOps (initState prods) ops) := by
  have h := c3_runOps ops (initState prods)
    (fun i hi => absurd hi (List.not_mem_nil i))
    (fun it hit => absurd hit (List.not_mem_nil it))
    (fun tx htx => absurd htx (List.not_mem_nil tx))
    (fun it hit => absurd hit (List.not_mem_nil it))
    (by simpa [initState] using hts)
  exact ⟨h.2.1, h.2.2.1⟩

/-- C3 witness: a concrete run with two sales at distinct timestamps. -/
theorem invoice_items_consistent_witness :
    (([Op.add 1 2, .fin 100 "p" "d" 200 "Cash" "admin", .add 1 1, .fin 101 "p" "d" 0 "Cash" "admin"].filterMap finTs).Nodup) ∧
    (LineInv (runOps (initState [⟨1, "Urea", "fert", 100, 50, 5⟩]) [Op.add 1 2, .fin 100 "p" "d" 200 "Cash" "admin", .add 1 1, .fin 101 "p" "d" 0 "Cash" "admin"]) ∧
     SumInv (runOps (initState [⟨1, "Urea", "fert", 100, 50, 5⟩]) [Op.add 1 2, .fin 100 "p" "d" 200 "Cash" "admin", .add 1 1, .fin 101 "p" "d" 0 "Cash" "admin"])) :=
  ⟨by decide, invoice_items_consistent [⟨1, "Urea", "fert", 100, 50, 5⟩] _ (by decide)⟩

/-! ## C4 -/

/-- C4 counterexample: product with stock 5 and price 10; quantity 3 is added,
then quantity 3 is requested again.  The second add is rejected, but the
rejection reports the total stock `5` of the product (the code interpolates
`prod.stock` into the message, line 663), not the remaining availability
`2` the claim requires; the cart still holds quantity 3. -/
theorem stock_rejection_counterexample :
    (addLineOp (addLineOp (initState [⟨1, "Urea", "fert", 10, 5, 5⟩]) 1 3).2 1 3).1 = .stockError 5 ∧
    (addLineOp (addLineOp (initState [⟨1, "Urea", "fert", 10, 5, 5⟩]) 1 3).2 1 3).1 ≠ .stockError 2 ∧
    inCartQty (addLineOp (initState [⟨1, "Urea", "fert", 10, 5, 5⟩]) 1 3).2.cart 1 = 3 := by
  refine ⟨by decide, by decide, by decide⟩

/-- C4 (amended): adding quantity `q` of a product when the quantity already
in the cart plus `q` exceeds the current stock of the product is rejected with
a stock-error outcome carrying the total stock of the product (not stock minus
the quantity already in the cart), and the cart is left unchanged; in
particular,
with stock 5 and two successive adds of quantity 3, the second add is rejected
with available = 5 and the cart still holds quantity 3. -/
theorem stock_rejection_reports_stock (s : State) (pid qty : Nat) (prod : Product)
    (hfind : s.products.find? (fun p => p.id = pid) = some prod)
    (hover : ((inCartQty s.cart prod.id + qty : Nat) : Int) > prod.stock) :
    addLineOp s pid qty = (.stockError prod.stock, s) := by
  unfold addLineOp
  rw [hfind]
  unfold addLine
  dsimp only
  rw [if_pos hover]

/-- C4 witness: the amended rejection at the concrete scenario. -/
theorem stock_rejection_reports_stock_witness :
    ((addLineOp (initState [⟨1, "Urea", "fert", 10, 5, 5⟩]) 1 3).2.products.find? (fun p => p.id = 1) = some ⟨1, "Urea", "fert", 10, 5, 5⟩) ∧
    (((inCartQty (addLineOp (initState [⟨1, "Urea", "fert", 10, 5, 5⟩]) 1 3).2.cart 1 + 3 : Nat) : Int) > (5 : Int)) ∧
    addLineOp (addLineOp (initState [⟨1, "Urea", "fert", 10, 5, 5⟩]) 1 3).2 1 3
      = (.stockError 5, (addLineOp (initState [⟨1, "Urea", "fert", 10, 5, 5⟩]) 1 3).2) :=
  ⟨by decide, by decide,
   stock_rejection_reports_stock _ 1 3 ⟨1, "Urea", "fert", 10, 5, 5⟩ (by decide) (by decide)⟩

/-! ## C5 -/

/-- C5: `DatabaseEngine.run` never raises to its caller (the embedding is a
total function; the `try`/`except Exception` wrapper catches every statement
failure).  With a live connection: on success with `fetch=True` it returns the
rows as an ordered sequence of column-name-to-value mappings; on success with
`fetch=False` it commits and returns `True`; on a failed statement it issues a
rollback exactly on the Postgres backend and returns the degenerate value —
the empty sequence when `fetch=True`, `False` when `fetch=False`. -/
theorem run_contract {V : Type} (e : DatabaseEngine.Engine V) (query : List Char)
    (params : List V) (fetch : Bool) :
    (e.conn = false →
      DatabaseEngine.run e query params fetch
        = ((if fetch then .inl [] else .inr false), .noAction)) ∧
    (e.conn = true →
      ∀ cols rows, e.exec (if e.db_type = .POSTGRES then replaceQM query else query) params = some (cols, rows) →
        DatabaseEngine.run e query params fetch
          = (if fetch then (.inl (rows.map fun r => cols.zip r), .noAction)
             else (.inr true, .committed))) ∧
    (e.conn = true →
      e.exec (if e.db_type = .POSTGRES then replaceQM query else query) params = none →
        DatabaseEngine.run e query params fetch
          = ((if fetch then .inl [] else .inr false),
             if e.db_type = .POSTGRES then .rolledBack else .noAction)) := by
  refine ⟨?_, ?_, ?_⟩
  · intro hconn
    unfold DatabaseEngine.run
    rw [if_pos hconn]
  · intro hconn cols rows hexec
    unfold DatabaseEngine.run
    rw [if_neg (by simp [hconn])]
    simp only [hexec]
  · intro hconn hexec
    unfold DatabaseEngine.run
    rw [if_neg (by simp [hconn])]
    simp only [hexec]

/-- C5 witness: a Postgres engine whose every statement fails rolls back and
returns the empty row sequence on a fetch. -/
theorem run_contract_witness :
    DatabaseEngine.run (V := Nat)
      ⟨.POSTGRES, true, fun _ _ => none⟩ ['S'] [] true = (.inl [], .rolledBack) :=
  (run_contract ⟨.POSTGRES, true, fun _ _ => none⟩ ['S'] [] true).2.2 rfl rfl

/-! ## C6 -/

/-- C6: the code contradicts the recoverable-cart requirement.  Each `db.run`
call inside finalize swallows its own failure and returns `False`, a value the
handler never inspects, and then `st.session_state.cart = []` (line 718)
executes unconditionally: whichever persistence steps fail — all of them in
the second conjunct, so not even the transaction header was written — the cart
is cleared, not left recoverable. -/
theorem finalize_clears_cart_even_on_failure (s : State) (ts : Nat)
    (cp d : String) (pd : Money) (md us : String) :
    (∀ flags : DbFlags, (finalizeWithDb s flags ts cp d pd md us).cart = []) ∧
    (finalizeWithDb s ⟨false, false, false, false⟩ ts cp d pd md us).transactions = s.transactions ∧
    (finalizeWithDb s ⟨false, false, false, false⟩ ts cp d pd md us).invoice_items = s.invoice_items ∧
    (finalizeWithDb s ⟨false, false, false, false⟩ ts cp d pd md us).products = s.products := by
  refine ⟨fun flags => rfl, ?_, ?_, ?_⟩ <;> simp [finalizeWithDb]

/-! ## C7 -/

lemma coalesce_sqlSum (l : List Money) : coalesce (sqlSum l) 0 = l.sum := by
  cases l with
  | nil => rfl
  | cons v rest => rfl

/-- C7: `get_live_financials` computes the revenue for today as the sum of
`total_amount` over SALE transactions dated today, the expenses for today as the sum
of `amount` over expenses dated today, market receivables as the sum of
`total_amount` over SALE transactions minus the sum of `paid_amount` over all
transactions, and net profit as revenue minus expenses; and each aggregate is
the numeric zero when its matching row set is empty. -/
theorem get_live_financials_spec (txs : List TxRow) (exps : List ExpenseRow)
    (today : String) :
    (get_live_financials txs exps today).1
        = ((txs.filter fun t => t.date == today && t.type == "SALE").map (·.total_amount)).sum ∧
    (get_live_financials txs exps today).2.1
        = ((exps.filter fun ex => ex.date == today).map (·.amount)).sum ∧
    (get_live_financials txs exps today).2.2.1
        = ((txs.filter fun t => t.type == "SALE").map (·.total_amount)).sum
          - (txs.map (·.paid_amount)).sum ∧
    (get_live_financials txs exps today).2.2.2
        = (get_live_financials txs exps today).1
          - (get_live_financials txs exps today).2.1 ∧
    ((txs.filter fun t => t.date == today && t.type == "SALE") = [] →
      (get_live_financials txs exps today).1 = 0) ∧
    ((exps.filter fun ex => ex.date == today) = [] →
      (get_live_financials txs exps today).2.1 = 0) ∧
    (txs = [] → (get_live_financials txs exps today).2.2.1 = 0) := by
  refine ⟨?_, ?_, ?_, rfl, ?_, ?_, ?_⟩
  · exact coalesce_sqlSum _
  · exact coalesce_sqlSum _
  · show coalesce _ 0 - coalesce _ 0 = _
    rw [coalesce_sqlSum, coalesce_sqlSum]
  · intro h
    show coalesce (sqlSum ((txs.filter fun t => t.date == today && t.type == "SALE").map (·.total_amount))) 0 = 0
    rw [h]
    rfl
  · intro h
    show coalesce (sqlSum ((exps.filter fun ex => ex.date == today).map (·.amount))) 0 = 0
    rw [h]
    rfl
  · intro h
    subst h
    simp [get_live_financials, coalesce, sqlSum]

/-- C7 witness: the aggregates at a concrete ledger. -/
theorem get_live_financials_spec_witness :
    (([] : List TxRow).filter (fun t => t.date == "d" && t.type == "SALE") = []) ∧
    (get_live_financials [] [⟨"d", "Rent", 7, "n", "admin"⟩] "d").1 = 0 :=
  ⟨by decide, (get_live_financials_spec [] [⟨"d", "Rent", 7, "n", "admin"⟩] "d").2.2.2.2.1 rfl⟩

/-! ## C8 -/

/-- C8 counterexample: a SELECT statement holding a literal question mark
inside a quoted string (the list below spells `SELECT`, a quote, `a?`, a
quote); the replace of the adapter rewrites the quoted question mark to a
percent-s pair, while the transparent (quote-respecting) translation of the
spec leaves it untouched, so the two differ and the translated statement
means something else on Postgres than the original does on SQLite. -/
theorem replaceQM_counterexample :
    replaceQM ['S', 'E', 'L', 'E', 'C', 'T', ' ', squote, 'a', '?', squote]
      ≠ specReplaceQM false ['S', 'E', 'L', 'E', 'C', 'T', ' ', squote, 'a', '?', squote] := by
  decide

lemma replaceQM_eq_spec_aux (l : List Char) : ∀ b : Bool,
    noQMInQuotes b l = true → replaceQM l = specReplaceQM b l := by
  induction l with
  | nil => intro b _; rfl
  | cons c rest ih =>
    intro b hb
    simp only [noQMInQuotes] at hb
    simp only [replaceQM, specReplaceQM]
    by_cases hq : c = squote
    · have hcne : ¬ c = '?' := by rw [hq]; decide
      rw [if_neg hcne, if_pos hq]
      rw [if_pos hq] at hb
      rw [ih (!b) hb]
    · rw [if_neg hq] at hb
      rw [if_neg hq]
      by_cases hc : c = '?'
      · cases b with
        | true =>
          rw [if_pos (by simp [hc])] at hb
          exact absurd hb (by simp)
        | false =>
          rw [if_neg (by simp)] at hb
          rw [if_pos hc, if_pos (by simp [hc])]
          rw [ih false hb]
      · rw [if_neg (by simp [hc])] at hb
        rw [if_neg hc, if_neg (by simp [hc])]
        rw [ih b hb]

/-- C8 (amended): the adapter rewrites every `?` character of the statement to
`%s`, including a literal question mark inside a quoted string (which changes
the meaning of that statement on the Postgres backend); the translation agrees with
the transparent, quote-respecting translation exactly on statements in which
every `?` stands outside quoted string literals, i.e. is a parameter
placeholder. -/
theorem replaceQM_transparent_outside_quotes (q : List Char)
    (h : noQMInQuotes false q = true) :
    replaceQM q = specReplaceQM false q :=
  replaceQM_eq_spec_aux q false h

/-- C8 witness: a placeholder-only statement translates transparently. -/
theorem replaceQM_transparent_outside_quotes_witness :
    (noQMInQuotes false ['S', 'E', 'L', ' ', '?', ',', '?'] = true) ∧
    replaceQM ['S', 'E', 'L', ' ', '?', ',', '?']
      = specReplaceQM false ['S', 'E', 'L', ' ', '?', ',', '?'] :=
  ⟨by decide, replaceQM_transparent_outside_quotes ['S', 'E', 'L', ' ', '?', ',', '?'] (by decide)⟩

/-! ## C9 -/

/-- C9: deleting a customer succeeds exactly when the customer has zero
associated transaction rows; a rejected deletion leaves the customers table
unchanged, and a successful one removes exactly the row of that customer. -/
theorem deleteCustomer_iff (customers : List CustomerRow) (txs : List TxRow)
    (phone : String) :
    ((deleteCustomer customers txs phone).1 = true ↔
      (txs.filter fun t => t.customer_phone == phone).length = 0) ∧
    ((txs.filter fun t => t.customer_phone == phone).length ≠ 0 →
      (deleteCustomer customers txs phone).2 = customers) ∧
    ((txs.filter fun t => t.customer_phone == phone).length = 0 →
      (deleteCustomer customers txs phone).2
        = customers.filter fun c => !(c.phone == phone)) := by
  unfold deleteCustomer
  split
  · rename_i h
    exact ⟨by simp [h], fun hne => absurd h hne, fun _ => rfl⟩
  · rename_i h
    exact ⟨by simp [h], fun _ => rfl, fun he => absurd he h⟩

/-- C9 witness: a customer with one historical transaction is not deletable
and the table is unchanged. -/
theorem deleteCustomer_iff_witness :
    ((([⟨100, "p", "d", "SALE", 10, 10, 0, "Cash", "admin"⟩] : List TxRow).filter fun t => t.customer_phone == "p").length ≠ 0) ∧
    (deleteCustomer [⟨"p", "n", "a", "d", 50000⟩] [⟨100, "p", "d", "SALE", 10, 10, 0, "Cash", "admin"⟩] "p").2
      = [⟨"p", "n", "a", "d", 50000⟩] :=
  ⟨by decide,
   (deleteCustomer_iff [⟨"p", "n", "a", "d", 50000⟩] [⟨100, "p", "d", "SALE", 10, 10, 0, "Cash", "admin"⟩] "p").2.1 (by decide)⟩

/-! ## C10 -/

/-- C10: a line-item row fetched from the `invoice_items` table (keys
`quantity`, `unit_price`, `total_price`; no `qty`, `price`, `total`) makes the
falsy-fallback lookup of `create_invoice` yield `None` — so `int()`/`float()`
raises — exactly when `quantity`, `unit_price` or `total_price` is zero; when
all three are non-zero, no exception is raised. -/
theorem create_invoice_line_raises_iff (pname : String) (q up tp : Money) :
    create_invoice_line (dbItemRow pname q up tp) = none ↔
      (q = 0 ∨ up = 0 ∨ tp = 0) := by
  unfold create_invoice_line dbItemRow pyOr pyNum
  dsimp only
  by_cases hu : up = 0
  · rw [if_pos hu]
    simp [hu]
  · rw [if_neg hu]
    by_cases hq : q = 0
    · rw [if_pos hq]
      simp [hq]
    · rw [if_neg hq]
      by_cases ht : tp = 0
      · rw [if_pos ht]
        simp [hq, hu, ht]
      · rw [if_neg ht]
        simp [hq, hu, ht]

end KkgErp
